import Mathlib

/-!
# Verification of the dev-events data layer

Shallow embedding of the repository's persistence layer:

* `src/database/event.model.ts` — the Event schema, its field validators
  (required / minlength / enum messages, `trim` and `lowercase` setters)
  and its `pre("save")` hook (slug derivation via the `slugify` package
  with `lower`/`strict`/`trim` options, date/time checks, required-field
  loop);
* `src/unnamed/part_000` (booking model) — the Booking schema (email
  `match` pattern, `trim`+`lowercase` setters) and its `pre("save")`
  referential-integrity hook;
* `src/lib/mongodb.ts` — the single-flight connection cache
  `connectToDatabase`.

Strings are modelled over ASCII code points with JS semantics: the
character classes of the JS regexes used by the code (`\d`, `\s`,
`[A-Za-z0-9]`, `[^\s@]`) are ASCII on the inputs this layer handles, and
`String.prototype.toLowerCase` / `trim` agree with the ASCII maps below
on those inputs.  Mongoose's documented save pipeline is embedded
explicitly: setters apply on assignment, built-in path validation runs
before user `pre("save")` hooks, and any failure aborts the write.
-/

/-! ## ASCII character classes of the JS regexes -/

/-- `\d` of a JS regex: the ASCII digits. -/
def isAsciiDigit (c : Char) : Bool := 48 ≤ c.toNat && c.toNat ≤ 57

/-- `A`–`Z`. -/
def isAsciiUpper (c : Char) : Bool := 65 ≤ c.toNat && c.toNat ≤ 90

/-- `a`–`z`. -/
def isAsciiLower (c : Char) : Bool := 97 ≤ c.toNat && c.toNat ≤ 122

/-- `[A-Za-z0-9]`, the class kept by slugify's strict-mode filter. -/
def isAlnumJS (c : Char) : Bool := isAsciiUpper c || isAsciiLower c || isAsciiDigit c

/-- `\s` of a JS regex, restricted to ASCII: tab, LF, VT, FF, CR, space. -/
def isWsJS (c : Char) : Bool := c.toNat == 32 || (9 ≤ c.toNat && c.toNat ≤ 13)

/-- `String.prototype.toLowerCase` on an ASCII code point. -/
def jsToLower (c : Char) : Char :=
  if 65 ≤ c.toNat && c.toNat ≤ 90 then Char.ofNat (c.toNat + 32) else c

/-- `String.prototype.trim`: drop leading and trailing whitespace. -/
def jsTrimChars (l : List Char) : List Char :=
  ((l.dropWhile isWsJS).reverse.dropWhile isWsJS).reverse

/-- `String.prototype.trim` on strings. -/
def jsTrim (s : String) : String := String.mk (jsTrimChars s.toList)

/-- `String.prototype.toLowerCase` on strings. -/
def jsToLowerStr (s : String) : String := String.mk (s.toList.map jsToLower)

/-! ## The `slugify` package with `lower: true, strict: true, trim: true`

`slugify(string, opts)` (simov/slugify) maps every character through its
transliteration table, strips characters the `remove` regex matches,
then under `strict` keeps only `[A-Za-z0-9\s]`, trims, replaces each
whitespace run by the `-` replacement, and lowercases. -/

/-- The ASCII entries of slugify's transliteration table; all other
ASCII characters map to themselves (the remaining table entries are
non-ASCII). -/
def charMapJS (c : Char) : List Char :=
  if c = '$' then "dollar".toList
  else if c = '%' then "percent".toList
  else if c = '&' then "and".toList
  else if c = '<' then "less".toList
  else if c = '>' then "greater".toList
  else if c = '|' then "or".toList
  else [c]

/-- Replace each maximal whitespace run by a single `-` (the
`/\s+/g → "-"` step); `prevWs` records whether the previous character
belonged to a run already replaced. -/
def collapseWs (prevWs : Bool) : List Char → List Char
  | [] => []
  | c :: rest =>
    if isWsJS c then
      (if prevWs then [] else ['-']) ++ collapseWs true rest
    else c :: collapseWs false rest

/-- slugify's pipeline on character lists: transliterate, strict-filter
to `[A-Za-z0-9\s]`, trim, collapse whitespace to `-`, lowercase. -/
def slugifyChars (l : List Char) : List Char :=
  let mapped := l.flatMap charMapJS
  let kept := mapped.filter (fun c => isAlnumJS c || isWsJS c)
  let trimmed := jsTrimChars kept
  (collapseWs false trimmed).map jsToLower

/-- `slugify(s, \x7b lower: true, strict: true, trim: true \x7d)`. -/
def slugify (s : String) : String := String.mk (slugifyChars s.toList)


/-! ## Date strings: the hook's regex and `new Date(...)` validity -/

/-- `/^\d{4}-\d{2}-\d{2}$/.test(s)`. -/
def dateRegexTest (s : String) : Bool :=
  match s.toList with
  | [y1, y2, y3, y4, h1, m1, m2, h2, d1, d2] =>
    isAsciiDigit y1 && isAsciiDigit y2 && isAsciiDigit y3 && isAsciiDigit y4 &&
    h1 == '-' && isAsciiDigit m1 && isAsciiDigit m2 && h2 == '-' &&
    isAsciiDigit d1 && isAsciiDigit d2
  | _ => false

/-- Numeric value of an ASCII digit. -/
def digitVal (c : Char) : Nat := c.toNat - 48

/-- Gregorian leap year. -/
def isLeapYear (y : Nat) : Bool := (y % 4 == 0 && y % 100 != 0) || y % 400 == 0

/-- Days in a month of a given year. -/
def daysInMonth (y m : Nat) : Nat :=
  if m == 2 then (if isLeapYear y then 29 else 28)
  else if m == 4 || m == 6 || m == 9 || m == 11 then 30
  else 31

/-- `!isNaN(new Date(s).getTime())` for a date-only string: the engine's
ISO date-time-string parser accepts `YYYY-MM-DD` exactly when the month
is 01–12 and the day is within that month (e.g. `2024-13-01` and
`2024-02-30` parse to an invalid date).  On strings of any other shape
the hook never consults this predicate, because the regex test above
runs first. -/
def jsDateValid (s : String) : Bool :=
  match s.toList with
  | [y1, y2, y3, y4, h1, m1, m2, h2, d1, d2] =>
    (isAsciiDigit y1 && isAsciiDigit y2 && isAsciiDigit y3 && isAsciiDigit y4 &&
     h1 == '-' && isAsciiDigit m1 && isAsciiDigit m2 && h2 == '-' &&
     isAsciiDigit d1 && isAsciiDigit d2) &&
    (let y := ((digitVal y1 * 10 + digitVal y2) * 10 + digitVal y3) * 10 + digitVal y4
     let m := digitVal m1 * 10 + digitVal m2
     let d := digitVal d1 * 10 + digitVal d2
     1 ≤ m && m ≤ 12 && 1 ≤ d && d ≤ daysInMonth y m)
  | _ => false


/-! ## The booking email pattern -/

/-- Split a character list at its first occurrence of `sep`. -/
def splitFirstAt (sep : Char) : List Char → Option (List Char × List Char)
  | [] => none
  | c :: rest =>
    if c = sep then some ([], rest)
    else match splitFirstAt sep rest with
      | some (l, r) => some (c :: l, r)
      | none => none

/-- `/^[^\s@]+@[^\s@]+\.[^\s@]+$/.test(s)`: a non-empty run without
whitespace or `@`, one `@`, then a non-empty run containing a `.` that
is neither its first nor its last character. -/
def emailRegexTest (s : String) : Bool :=
  match splitFirstAt '@' s.toList with
  | none => false
  | some (l, r) =>
    !l.isEmpty && l.all (fun c => !isWsJS c) &&
    r.all (fun c => !isWsJS c && c != '@') &&
    ((r.drop 1).dropLast.contains '.')


/-! ## Event documents

A mongoose document is embedded as its string paths plus the dirty
tracking the hooks consult: `isNew`, and `modified`, the list of paths
for which `isModified(path)` is `true`.  In a document built by
`new Model(draft)` every path supplied by the draft is modified.  All
string paths of the documents modelled here are set (they are `required`
and supplied by every draft), so the hook's `typeof this[field] ===
"string"` guard is always true. -/

structure EventDoc where
  title : String
  slug : String
  description : String
  overview : String
  image : String
  venue : String
  location : String
  date : String
  time : String
  mode : String
  audience : String
  agenda : List String
  organizer : String
  tags : List String
  isNew : Bool
  modified : List String
deriving Repr, DecidableEq

/-- `this.isModified(path)`. -/
def EventDoc.isModified (d : EventDoc) (path : String) : Bool :=
  d.modified.contains path

/-- Dynamic access `this[field]` for the seven fields of the hook's
`requiredFields` list. -/
def EventDoc.fieldVal (d : EventDoc) : String → String
  | "title" => d.title
  | "description" => d.description
  | "overview" => d.overview
  | "image" => d.image
  | "venue" => d.venue
  | "location" => d.location
  | "organizer" => d.organizer
  | _ => ""

/-- The `slug` path's schema setters (`lowercase: true, trim: true`),
applied whenever the hook assigns `this.slug`. -/
def slugSetter (v : String) : String := jsToLowerStr (jsTrim v)

/-- First step of the event `pre("save")` hook: regenerate the slug when
the title is modified or the document is new. -/
def applySlugStep (d : EventDoc) : EventDoc :=
  if d.isModified "title" || d.isNew then
    { d with slug := slugSetter (slugify d.title) }
  else d

/-- The hook's `requiredFields` list, in source order. -/
def requiredFields : List String :=
  ["title", "description", "overview", "image", "venue", "location", "organizer"]

/-- The hook's `for (const field of requiredFields)` loop, as written:
it throws as soon as `isModified(field)` holds, or the document is new
and the field's value trims to the empty string. -/
def requiredLoop (d : EventDoc) : List String → Option String
  | [] => none
  | f :: rest =>
    if d.isModified f || (d.isNew && (jsTrim (d.fieldVal f) == "")) then
      some (f ++ " cannot be empty")
    else requiredLoop d rest

/-- `eventSchema.pre("save", ...)` translated statement by statement:
slug regeneration, the date-format and date-parse checks, the time
check, then the required-field loop; the first `throw` aborts the hook
with its message. -/
def eventPreSaveHook (d : EventDoc) : Except String EventDoc :=
  let d := applySlugStep d
  if (d.isModified "date" || d.isNew) && !dateRegexTest d.date then
    .error "Date must be in ISO format (YYYY-MM-DD)"
  else if (d.isModified "date" || d.isNew) && !jsDateValid d.date then
    .error "Invalid date value"
  else if (d.isModified "time" || d.isNew) && jsTrim d.time == "" then
    .error "Time cannot be empty"
  else
    match requiredLoop d requiredFields with
    | some e => .error e
    | none => .ok d

/-- First `some` in a list of optional errors. -/
def firstSome : List (Option α) → Option α
  | [] => none
  | some a :: _ => some a
  | none :: rest => firstSome rest

/-- The hook's checks as an ordered list: the two date checks, the time
check, then one check per required field in source order.  `firstSome`
over this list is the specification the straight-line hook is proved
equivalent to. -/
def eventHookChecks (d : EventDoc) : List (Option String) :=
  [if (d.isModified "date" || d.isNew) && !dateRegexTest d.date then
     some "Date must be in ISO format (YYYY-MM-DD)" else none,
   if (d.isModified "date" || d.isNew) && !jsDateValid d.date then
     some "Invalid date value" else none,
   if (d.isModified "time" || d.isNew) && jsTrim d.time == "" then
     some "Time cannot be empty" else none] ++
  requiredFields.map (fun f =>
    if d.isModified f || (d.isNew && (jsTrim (d.fieldVal f) == "")) then
      some (f ++ " cannot be empty")
    else none)

/-- `Modelled from the spec: the intent of the required-field loop
(spec §4.2 step 4 read with §8, and the hook's own doc comment "Ensure
required fields are non-empty"): a changed-or-new field fails only when
its trimmed value is empty.  The code as written instead throws for
every modified field; this definition is the evident intended
condition. -/
def requiredLoopIntended (d : EventDoc) : List String → Option String
  | [] => none
  | f :: rest =>
    if (d.isModified f || d.isNew) && (jsTrim (d.fieldVal f) == "") then
      some (f ++ " cannot be empty")
    else requiredLoopIntended d rest

/-- The event hook with the intended required-field loop; identical to
`eventPreSaveHook` in every other step. -/
def eventPreSaveHookIntended (d : EventDoc) : Except String EventDoc :=
  let d := applySlugStep d
  if (d.isModified "date" || d.isNew) && !dateRegexTest d.date then
    .error "Date must be in ISO format (YYYY-MM-DD)"
  else if (d.isModified "date" || d.isNew) && !jsDateValid d.date then
    .error "Invalid date value"
  else if (d.isModified "time" || d.isNew) && jsTrim d.time == "" then
    .error "Time cannot be empty"
  else
    match requiredLoopIntended d requiredFields with
    | some e => .error e
    | none => .ok d

/-! ## Mongoose built-in validation

`save()` runs the schema's path validators before any user `pre("save")`
hook (mongoose triggers `validate()` from a built-in pre-save hook that
precedes user hooks).  For each path the validators run in order —
`required` first, then `minlength` / `enum` — and at most one error per
path is recorded; errors are keyed by path in schema-definition order.
`required` fails on the empty string.  The `agenda`/`tags` array paths
are carried as data: no claim varies them and every draft used below
supplies them non-empty. -/

/-- Path validation of `eventSchema`, returning `(path, message)` pairs
with the messages declared in the schema. -/
def validateEvent (d : EventDoc) : List (String × String) :=
  (if d.title == "" then [("title", "Title is required")]
   else if d.title.length < 3 then [("title", "Title must be at least 3 characters")]
   else []) ++
  (if d.description == "" then [("description", "Description is required")]
   else if d.description.length < 10 then
     [("description", "Description must be at least 10 characters")]
   else []) ++
  (if d.overview == "" then [("overview", "Overview is required")]
   else if d.overview.length < 10 then
     [("overview", "Overview must be at least 10 characters")]
   else []) ++
  (if d.image == "" then [("image", "Image URL is required")] else []) ++
  (if d.venue == "" then [("venue", "Venue is required")] else []) ++
  (if d.location == "" then [("location", "Location is required")] else []) ++
  (if d.date == "" then [("date", "Date is required")] else []) ++
  (if d.time == "" then [("time", "Time is required")] else []) ++
  (if d.mode == "" then [("mode", "Event mode is required")]
   else if !(d.mode == "online" || d.mode == "offline" || d.mode == "hybrid") then
     [("mode", "Mode must be online, offline, or hybrid")]
   else []) ++
  (if d.audience == "" then [("audience", "Target audience is required")] else []) ++
  (if d.organizer == "" then [("organizer", "Organizer is required")] else [])

/-- A failed save: a `ValidationError` aggregating per-path errors, or
an error thrown by a `pre("save")` hook. -/
inductive SaveErr where
  | pathErrors (errs : List (String × String)) : SaveErr
  | hookError (msg : String) : SaveErr
deriving Repr, DecidableEq

/-- `doc.save()` for an event document: path validation, then the
`pre("save")` hook; the persisted document is the hook's output. -/
def saveEventDoc (d : EventDoc) : Except SaveErr EventDoc :=
  match validateEvent d with
  | [] =>
    match eventPreSaveHook d with
    | .error e => .error (.hookError e)
    | .ok d' => .ok d'
  | errs => .error (.pathErrors errs)

/-- `doc.save()` with the intended required-field loop. -/
def saveEventDocIntended (d : EventDoc) : Except SaveErr EventDoc :=
  match validateEvent d with
  | [] =>
    match eventPreSaveHookIntended d with
    | .error e => .error (.hookError e)
    | .ok d' => .ok d'
  | errs => .error (.pathErrors errs)

/-- The fields an external caller supplies to `Event.create` /
`new Event(...)`. -/
structure EventDraft where
  title : String
  description : String
  overview : String
  image : String
  venue : String
  location : String
  date : String
  time : String
  mode : String
  audience : String
  agenda : List String
  organizer : String
  tags : List String
deriving Repr, DecidableEq

/-- `new Event(draft)`: the schema's `trim: true` setters apply on
assignment (`date` and `mode` declare no setter), every supplied path is
marked modified, and the document is new.  `slug` is not supplied by
drafts; it is assigned by the hook. -/
def mkNewEventDoc (dr : EventDraft) : EventDoc :=
  { title := jsTrim dr.title
    slug := ""
    description := jsTrim dr.description
    overview := jsTrim dr.overview
    image := jsTrim dr.image
    venue := jsTrim dr.venue
    location := jsTrim dr.location
    date := dr.date
    time := jsTrim dr.time
    mode := dr.mode
    audience := jsTrim dr.audience
    agenda := dr.agenda
    organizer := jsTrim dr.organizer
    tags := dr.tags
    isNew := true
    modified := ["title", "description", "overview", "image", "venue", "location",
                 "date", "time", "mode", "audience", "agenda", "organizer", "tags"] }

/-- The booking document: the referenced event id plus the email path,
with the same dirty tracking as `EventDoc`.  Event identities are
modelled as `Nat`. -/
structure BookingDoc where
  eventId : Nat
  email : String
  isNew : Bool
  modified : List String
deriving Repr, DecidableEq

/-- `this.isModified(path)` for bookings. -/
def BookingDoc.isModified (d : BookingDoc) (path : String) : Bool :=
  d.modified.contains path

/-- The persisted collections: events and bookings with their assigned
identities, and the next identity the store will assign. -/
structure AppDB where
  events : List (Nat × EventDoc)
  nextEventId : Nat
  bookings : List (Nat × BookingDoc)
  nextBookingId : Nat
deriving Repr, DecidableEq

/-- `Event.findById(id)` returning whether a document exists. -/
def eventExists (db : AppDB) (id : Nat) : Bool :=
  db.events.any (fun e => e.1 == id)

/-- Path validation of `bookingSchema`: `eventId` is `required` (always
present here, as identities are not nullable in the model) and `email`
is `required` with the `match` pattern. -/
def validateBooking (d : BookingDoc) : List (String × String) :=
  (if d.email == "" then [("email", "Email is required")]
   else if !emailRegexTest d.email then
     [("email", "Please provide a valid email address")]
   else [])

/-- `bookingSchema.pre("save", ...)`: when `eventId` is modified or the
document is new, look the referenced event up and throw if it is
absent. -/
def bookingPreSaveHook (db : AppDB) (d : BookingDoc) : Except String BookingDoc :=
  if d.isModified "eventId" || d.isNew then
    if !eventExists db d.eventId then
      .error ("Event with ID " ++ toString d.eventId ++ " does not exist")
    else .ok d
  else .ok d

/-- `doc.save()` for a booking document: path validation, then the
referential-integrity hook. -/
def saveBookingDoc (db : AppDB) (d : BookingDoc) : Except SaveErr BookingDoc :=
  match validateBooking d with
  | [] =>
    match bookingPreSaveHook db d with
    | .error e => .error (.hookError e)
    | .ok d' => .ok d'
  | errs => .error (.pathErrors errs)

/-- The fields a caller supplies to `Booking.create`. -/
structure BookingDraft where
  eventId : Nat
  email : String
deriving Repr, DecidableEq

/-- `new Booking(draft)`: the email path's `trim` and `lowercase`
setters apply on assignment, both paths are marked modified. -/
def mkNewBookingDoc (dr : BookingDraft) : BookingDoc :=
  { eventId := dr.eventId
    email := jsToLowerStr (jsTrim dr.email)
    isNew := true
    modified := ["eventId", "email"] }

/-- Insert an event: build the new document, save it, and on success
commit it under the next identity.  A failed save leaves the store
untouched. -/
def insertEvent (dr : EventDraft) (db : AppDB) : Except SaveErr (AppDB × Nat) :=
  match saveEventDoc (mkNewEventDoc dr) with
  | .error e => .error e
  | .ok d' =>
    .ok ({ db with
            events := db.events ++ [(db.nextEventId, d')]
            nextEventId := db.nextEventId + 1 },
         db.nextEventId)

/-- Insert with the intended required-field loop. -/
def insertEventIntended (dr : EventDraft) (db : AppDB) : Except SaveErr (AppDB × Nat) :=
  match saveEventDocIntended (mkNewEventDoc dr) with
  | .error e => .error e
  | .ok d' =>
    .ok ({ db with
            events := db.events ++ [(db.nextEventId, d')]
            nextEventId := db.nextEventId + 1 },
         db.nextEventId)

/-- Insert a booking: build, save (validation then existence hook), and
on success commit under the next identity. -/
def insertBooking (dr : BookingDraft) (db : AppDB) : Except SaveErr (AppDB × Nat) :=
  match saveBookingDoc db (mkNewBookingDoc dr) with
  | .error e => .error e
  | .ok d' =>
    .ok ({ db with
            bookings := db.bookings ++ [(db.nextBookingId, d')]
            nextBookingId := db.nextBookingId + 1 },
         db.nextBookingId)

/-- The empty store. -/
def emptyDB : AppDB := { events := [], nextEventId := 0, bookings := [], nextBookingId := 0 }

/-! ## The connection cache (`src/lib/mongodb.ts`)

`connectToDatabase` runs on the JS event loop: its synchronous prefix —
the `cached.conn` check, the `cached.promise` check and, when that slot
is empty, the start of a new attempt and the assignment
`cached.promise = mongoose.connect(...)` — contains no `await` and so
executes atomically with respect to other callers.  Each caller then
suspends on `await cached.promise`.  The model therefore splits a call
into one atomic synchronous step (`connectSync`) and the caller's
observation of the awaited attempt settling (`connectAwait`).  Attempts
are numbered so that "how many underlying connection attempts were
started" is part of the state; handles are modelled as `Nat`. -/

/-- The two slots of the module-level `cached` object: the in-flight
promise (as the identity of the attempt it belongs to) and the resolved
connection handle. -/
structure ConnCache where
  promise : Option Nat
  conn : Option Nat
deriving Repr, DecidableEq

/-- The cache plus the count of connection attempts started so far,
which also serves as the next attempt's identity. -/
structure ConnWorld where
  cache : ConnCache
  attemptsStarted : Nat
deriving Repr, DecidableEq

/-- What the synchronous prefix of one call produces: an immediate
return of the cached handle, or suspension on the attempt `pid`. -/
inductive SyncResult where
  | cachedConn (h : Nat) : SyncResult
  | awaiting (pid : Nat) : SyncResult
deriving Repr, DecidableEq

/-- The synchronous prefix of `connectToDatabase`: return `cached.conn`
if present; otherwise await `cached.promise`, first starting a new
attempt and storing its promise when the slot is empty. -/
def connectSync (w : ConnWorld) : ConnWorld × SyncResult :=
  match w.cache.conn with
  | some h => (w, .cachedConn h)
  | none =>
    match w.cache.promise with
    | some p => (w, .awaiting p)
    | none =>
      let pid := w.attemptsStarted
      ({ cache := { promise := some pid, conn := w.cache.conn },
         attemptsStarted := w.attemptsStarted + 1 },
       .awaiting pid)

/-- How the attempt a caller awaits settles. -/
inductive AttemptOutcome where
  | success (h : Nat) : AttemptOutcome
  | failure (msg : String) : AttemptOutcome
deriving Repr, DecidableEq

/-- One waiter's observation of its attempt settling.  On success the
caller runs `cached.conn = await cached.promise` and returns the handle.
On failure the promise's `.catch` clears `cached.promise`, wraps the
error, and the caller's `catch` block clears the slot again and
rethrows; `cached.conn` is never assigned. -/
def connectAwait (w : ConnWorld) (o : AttemptOutcome) : ConnWorld × Except String Nat :=
  match o with
  | .success h =>
    ({ w with cache := { promise := w.cache.promise, conn := some h } }, .ok h)
  | .failure msg =>
    ({ w with cache := { promise := none, conn := w.cache.conn } },
     .error ("Database connection error: " ++ msg))

/-- A cache with neither a resolved handle nor an in-flight attempt. -/
def ConnWorld.idle (w : ConnWorld) : Prop :=
  w.cache.conn = none ∧ w.cache.promise = none

/-! ## Schema options of the `slug` path -/

/-- The options `eventSchema` declares on `slug`. -/
structure SlugPathOptions where
  unique : Bool
  lowercase : Bool
  trim : Bool
  index : Bool
deriving Repr, DecidableEq

/-- `slug: \x7b type: String, unique: true, lowercase: true, trim: true,
index: true \x7d`. -/
def eventSlugOptions : SlugPathOptions :=
  { unique := true, lowercase := true, trim := true, index := true }

/-- The slug the hook assigns to a new or title-modified document, as a
function: `slugify(title, opts)` passed through the `slug` path's
setters.  It reads nothing but the title. -/
def hookSlugOfTitle (t : String) : String := slugSetter (slugify t)

/-! ## Concrete documents and stores used by the end-to-end statements -/

/-- The spec's end-to-end draft: title "My Talk!!", date "2026-05-01",
time "10:00", every other required field non-empty and valid. -/
def c1Draft : EventDraft :=
  { title := "My Talk!!"
    description := "A talk about events."
    overview := "An overview of this talk."
    image := "/images/talk.png"
    venue := "Main Hall"
    location := "Lagos, NG"
    date := "2026-05-01"
    time := "10:00"
    mode := "online"
    audience := "Developers"
    agenda := ["Introduction"]
    organizer := "Acme Events"
    tags := ["talk"] }

/-- Slugs of the events stored by a successful insert (empty on error). -/
def eventSlugsOf : Except SaveErr (AppDB × Nat) → List String
  | .ok (db, _) => db.events.map (fun p => p.2.slug)
  | .error _ => []

/-- Emails of the bookings stored by a successful insert (empty on error). -/
def bookingEmailsOf : Except SaveErr (AppDB × Nat) → List String
  | .ok (db, _) => db.bookings.map (fun p => p.2.email)
  | .error _ => []

/-- The end-to-end flow after the event insert, under the intended
required-field loop. -/
def c1AfterEvent : Except SaveErr (AppDB × Nat) := insertEventIntended c1Draft emptyDB

/-- The end-to-end flow after booking that event's id with email
"A@B.com". -/
def c1AfterBooking : Except SaveErr (AppDB × Nat) :=
  match c1AfterEvent with
  | .ok (db1, eid) => insertBooking { eventId := eid, email := "A@B.com" } db1
  | .error e => .error e

/-- Accessor for the seven required text fields of a draft, mirroring
`EventDoc.fieldVal`. -/
def EventDraft.fieldVal (dr : EventDraft) : String → String
  | "title" => dr.title
  | "description" => dr.description
  | "overview" => dr.overview
  | "image" => dr.image
  | "venue" => dr.venue
  | "location" => dr.location
  | "organizer" => dr.organizer
  | _ => ""

/-- A stored (non-new) event document re-saved with only its date
modified. -/
def c8WitnessDoc : EventDoc :=
  { title := "Rust Conf"
    slug := "rust-conf"
    description := "A conference about Rust."
    overview := "Talks and workshops on Rust."
    image := "/images/event6.png"
    venue := "Convention Center"
    location := "Portland, OR"
    date := "2026-09-14"
    time := "10:00 AM"
    mode := "offline"
    audience := "Engineers"
    agenda := ["Keynote"]
    organizer := "RustConf Organizers"
    tags := ["rust"]
    isNew := false
    modified := ["date"] }

/-- A new event document whose title is non-empty after trimming but
consists only of characters slugify's strict mode strips. -/
def c7CexDoc : EventDoc :=
  { title := "!!!"
    slug := ""
    description := "A long enough description."
    overview := "A long enough overview."
    image := "/images/cex.png"
    venue := "Hall A"
    location := "Berlin, DE"
    date := "2026-01-01"
    time := "09:00"
    mode := "online"
    audience := "Everyone"
    agenda := []
    organizer := "Org"
    tags := []
    isNew := true
    modified := [] }

/-- Like `c7CexDoc` but with an ordinary title. -/
def c7WitnessDoc : EventDoc := { c7CexDoc with title := "My Talk!!" }

/-- A second new document with the same title as `c7WitnessDoc` but
different in every other caller-chosen field. -/
def c9OtherDoc : EventDoc :=
  { c7WitnessDoc with
    venue := "Hall B", location := "Paris, FR", date := "2026-07-07", slug := "seed" }

/-- A store holding one event under id 0. -/
def c4DB : AppDB :=
  { events := [(0, c8WitnessDoc)], nextEventId := 1, bookings := [], nextBookingId := 0 }

/-- The idle connection world: no handle, no in-flight attempt, no
attempts started. -/
def w0 : ConnWorld := { cache := { promise := none, conn := none }, attemptsStarted := 0 }

/-! ## Character-level lemmas -/

/-- Lowercase ASCII letters, digits and the separator: the alphabet a
strict-mode, lowercased slug may use. -/
def urlSafeChar (c : Char) : Bool := isAsciiLower c || isAsciiDigit c || c == '-'

theorem toNat_ofNat_add32 (n : Nat) (h1 : 65 ≤ n) (h2 : n ≤ 90) :
    (Char.ofNat (n + 32)).toNat = n + 32 := by
  interval_cases n <;> decide

theorem urlSafe_ranges (c : Char) (h : urlSafeChar c = true) :
    c.toNat = 45 ∨ (48 ≤ c.toNat ∧ c.toNat ≤ 57) ∨ (97 ≤ c.toNat ∧ c.toNat ≤ 122) := by
  unfold urlSafeChar isAsciiLower isAsciiDigit at h
  simp only [Bool.or_eq_true, Bool.and_eq_true, decide_eq_true_eq, beq_iff_eq] at h
  rcases h with (h | h) | h
  · right; right; exact h
  · right; left; exact h
  · subst h; left; decide

theorem alnum_ranges (c : Char) (h : isAlnumJS c = true) :
    (48 ≤ c.toNat ∧ c.toNat ≤ 57) ∨ (65 ≤ c.toNat ∧ c.toNat ≤ 90) ∨
    (97 ≤ c.toNat ∧ c.toNat ≤ 122) := by
  unfold isAlnumJS isAsciiUpper isAsciiLower isAsciiDigit at h
  simp only [Bool.or_eq_true, Bool.and_eq_true, decide_eq_true_eq] at h
  rcases h with (h | h) | h
  · right; left; exact h
  · right; right; exact h
  · left; exact h

theorem jsToLower_urlSafe_of_alnum (c : Char) (h : isAlnumJS c = true) :
    urlSafeChar (jsToLower c) = true := by
  have hr := alnum_ranges c h
  unfold jsToLower
  by_cases hu : (65 ≤ c.toNat && c.toNat ≤ 90) = true
  · simp only [Bool.and_eq_true, decide_eq_true_eq] at hu
    rw [if_pos (by simp only [Bool.and_eq_true, decide_eq_true_eq]; exact hu)]
    unfold urlSafeChar isAsciiLower isAsciiDigit
    simp only [Bool.or_eq_true, Bool.and_eq_true, decide_eq_true_eq]
    left
    rw [toNat_ofNat_add32 c.toNat hu.1 hu.2]
    omega
  · rw [if_neg hu]
    simp only [Bool.and_eq_true, decide_eq_true_eq, not_and, not_le] at hu
    unfold urlSafeChar isAsciiLower isAsciiDigit
    simp only [Bool.or_eq_true, Bool.and_eq_true, decide_eq_true_eq]
    rcases hr with h' | h' | h'
    · left; right; exact h'
    · omega
    · left; left; exact h'

theorem jsToLower_eq_self_of_urlSafe (c : Char) (h : urlSafeChar c = true) :
    jsToLower c = c := by
  have hr := urlSafe_ranges c h
  unfold jsToLower
  rw [if_neg (by simp only [Bool.and_eq_true, decide_eq_true_eq, not_and, not_le]; omega)]

theorem not_upper_of_urlSafe (c : Char) (h : urlSafeChar c = true) :
    isAsciiUpper c = false := by
  have hr := urlSafe_ranges c h
  unfold isAsciiUpper
  simp only [Bool.and_eq_false_iff, decide_eq_false_iff_not, not_le]
  omega

theorem not_ws_of_urlSafe (c : Char) (h : urlSafeChar c = true) :
    isWsJS c = false := by
  have hr := urlSafe_ranges c h
  unfold isWsJS
  simp only [Bool.or_eq_false_iff, Bool.and_eq_false_iff, beq_eq_false_iff_ne, ne_eq,
    decide_eq_false_iff_not, not_le]
  omega

theorem not_ws_of_alnum (c : Char) (h : isAlnumJS c = true) : isWsJS c = false := by
  have hr := alnum_ranges c h
  unfold isWsJS
  simp only [Bool.or_eq_false_iff, Bool.and_eq_false_iff, beq_eq_false_iff_ne, ne_eq,
    decide_eq_false_iff_not, not_le]
  omega

/-! ## List-level lemmas about the slug pipeline -/

theorem mem_collapseWs {c : Char} :
    ∀ (b : Bool) (l : List Char), c ∈ collapseWs b l →
      c = '-' ∨ (c ∈ l ∧ isWsJS c = false) := by
  intro b l
  induction l generalizing b with
  | nil => intro h; simp [collapseWs] at h
  | cons a rest ih =>
    intro h
    unfold collapseWs at h
    by_cases hws : isWsJS a = true
    · rw [if_pos hws] at h
      rcases List.mem_append.mp h with h' | h'
      · left
        by_cases hb : b = true
        · simp [hb] at h'
        · simp [hb] at h'; exact h'
      · rcases ih true h' with h'' | h''
        · left; exact h''
        · right; exact ⟨List.mem_cons_of_mem a h''.1, h''.2⟩
    · rw [if_neg hws] at h
      rcases List.mem_cons.mp h with h' | h'
      · right
        subst h'
        exact ⟨List.mem_cons_self c rest, Bool.not_eq_true _ ▸ hws⟩
      · rcases ih false h' with h'' | h''
        · left; exact h''
        · right; exact ⟨List.mem_cons_of_mem a h''.1, h''.2⟩

theorem collapseWs_ne_nil (l : List Char) (h : l ≠ []) :
    collapseWs false l ≠ [] := by
  match l with
  | [] => exact absurd rfl h
  | a :: rest =>
    unfold collapseWs
    by_cases hws : isWsJS a = true
    · rw [if_pos hws]; simp
    · rw [if_neg hws]; simp

theorem mem_of_mem_dropWhile {p : Char → Bool} {c : Char} :
    ∀ {l : List Char}, c ∈ l.dropWhile p → c ∈ l := by
  intro l h
  induction l with
  | nil => simp [List.dropWhile] at h
  | cons a rest ih =>
    rw [List.dropWhile_cons] at h
    by_cases hp : p a = true
    · simp only [hp, if_true] at h
      exact List.mem_cons_of_mem a (ih h)
    · simp only [hp] at h
      simpa using h

theorem mem_dropWhile_of_not {p : Char → Bool} {c : Char} (hc : p c = false) :
    ∀ {l : List Char}, c ∈ l → c ∈ l.dropWhile p := by
  intro l h
  induction l with
  | nil => simp at h
  | cons a rest ih =>
    rw [List.dropWhile_cons]
    by_cases hp : p a = true
    · simp only [hp, if_true]
      rcases List.mem_cons.mp h with h' | h'
      · subst h'; rw [hc] at hp; exact absurd hp (by simp)
      · exact ih h'
    · simp only [hp]
      simpa using h

theorem mem_of_mem_jsTrimChars {c : Char} {l : List Char} (h : c ∈ jsTrimChars l) :
    c ∈ l := by
  unfold jsTrimChars at h
  rw [List.mem_reverse] at h
  have h2 := mem_of_mem_dropWhile h
  rw [List.mem_reverse] at h2
  exact mem_of_mem_dropWhile h2

theorem mem_jsTrimChars_of_not_ws {c : Char} {l : List Char} (hc : isWsJS c = false)
    (h : c ∈ l) : c ∈ jsTrimChars l := by
  unfold jsTrimChars
  rw [List.mem_reverse]
  exact mem_dropWhile_of_not hc (List.mem_reverse.mpr (mem_dropWhile_of_not hc h))

theorem jsTrimChars_ne_nil {c : Char} {l : List Char} (hc : isWsJS c = false)
    (h : c ∈ l) : jsTrimChars l ≠ [] :=
  List.ne_nil_of_mem (mem_jsTrimChars_of_not_ws hc h)

theorem dropWhile_eq_self_of_all {p : Char → Bool} :
    ∀ {l : List Char}, (∀ c ∈ l, p c = false) → l.dropWhile p = l := by
  intro l h
  match l with
  | [] => rfl
  | a :: rest =>
    rw [List.dropWhile_cons, h a (List.mem_cons_self a rest)]
    simp

theorem jsTrimChars_eq_self {l : List Char} (h : ∀ c ∈ l, isWsJS c = false) :
    jsTrimChars l = l := by
  unfold jsTrimChars
  rw [dropWhile_eq_self_of_all h]
  rw [dropWhile_eq_self_of_all (fun c hc => h c (List.mem_reverse.mp hc))]
  exact List.reverse_reverse l

/-! ## Properties of the slug derivation -/

theorem slugify_urlSafe (s : String) :
    ∀ c ∈ (slugify s).toList, urlSafeChar c = true := by
  intro c hc
  have hc' : c ∈ slugifyChars s.toList := hc
  unfold slugifyChars at hc'
  simp only at hc'
  rcases List.mem_map.mp hc' with ⟨c0, hc0, rfl⟩
  rcases mem_collapseWs false _ hc0 with h | ⟨hmem, hnws⟩
  · rw [h]; decide
  · have hfil := mem_of_mem_jsTrimChars hmem
    rcases List.mem_filter.mp hfil with ⟨_, hkeep⟩
    have halnum : isAlnumJS c0 = true := by
      simp only [Bool.or_eq_true] at hkeep
      rcases hkeep with h' | h'
      · exact h'
      · rw [h'] at hnws; exact absurd hnws (by simp)
    exact jsToLower_urlSafe_of_alnum c0 halnum

theorem slugify_ne_empty {s : String}
    (h : ∃ c ∈ s.toList.flatMap charMapJS, isAlnumJS c = true) :
    slugify s ≠ "" := by
  obtain ⟨c, hmem, halnum⟩ := h
  have hkeep : c ∈ (s.toList.flatMap charMapJS).filter
      (fun c => isAlnumJS c || isWsJS c) :=
    List.mem_filter.mpr ⟨hmem, by rw [halnum]; rfl⟩
  have hnws := not_ws_of_alnum c halnum
  have htrim := mem_jsTrimChars_of_not_ws hnws hkeep
  have hcol := collapseWs_ne_nil _ (List.ne_nil_of_mem htrim)
  intro heq
  have hdata := congrArg String.data heq
  have hmap : (collapseWs false (jsTrimChars ((s.toList.flatMap charMapJS).filter
      (fun c => isAlnumJS c || isWsJS c)))).map jsToLower = [] := hdata
  exact hcol (List.map_eq_nil_iff.mp hmap)

theorem map_jsToLower_eq_self {l : List Char} (h : ∀ c ∈ l, jsToLower c = c) :
    l.map jsToLower = l := by
  induction l with
  | nil => rfl
  | cons a rest ih =>
    rw [List.map_cons, h a (List.mem_cons_self a rest),
      ih (fun c hc => h c (List.mem_cons_of_mem a hc))]

theorem jsTrim_slugify (s : String) : jsTrim (slugify s) = slugify s := by
  unfold jsTrim
  exact congrArg String.mk
    (jsTrimChars_eq_self (fun c hc => not_ws_of_urlSafe c (slugify_urlSafe s c hc)))

theorem jsToLowerStr_slugify (s : String) : jsToLowerStr (slugify s) = slugify s := by
  unfold jsToLowerStr
  exact congrArg String.mk
    (map_jsToLower_eq_self
      (fun c hc => jsToLower_eq_self_of_urlSafe c (slugify_urlSafe s c hc)))

theorem slugSetter_slugify (s : String) : slugSetter (slugify s) = slugify s := by
  unfold slugSetter
  rw [jsTrim_slugify, jsToLowerStr_slugify]

theorem hookSlugOfTitle_eq_slugify (t : String) : hookSlugOfTitle t = slugify t :=
  slugSetter_slugify t

/-! ## Structure of the event hook -/

theorem applySlugStep_date (d : EventDoc) : (applySlugStep d).date = d.date := by
  unfold applySlugStep; split <;> rfl

theorem applySlugStep_time (d : EventDoc) : (applySlugStep d).time = d.time := by
  unfold applySlugStep; split <;> rfl

theorem applySlugStep_title (d : EventDoc) : (applySlugStep d).title = d.title := by
  unfold applySlugStep; split <;> rfl

theorem applySlugStep_isNew (d : EventDoc) : (applySlugStep d).isNew = d.isNew := by
  unfold applySlugStep; split <;> rfl

theorem applySlugStep_modified (d : EventDoc) :
    (applySlugStep d).modified = d.modified := by
  unfold applySlugStep; split <;> rfl

theorem applySlugStep_isModified (d : EventDoc) (p : String) :
    (applySlugStep d).isModified p = d.isModified p := by
  unfold EventDoc.isModified
  rw [applySlugStep_modified]

theorem requiredLoop_eq_firstSome (d : EventDoc) : ∀ fs : List String,
    requiredLoop d fs = firstSome (fs.map (fun f =>
      if d.isModified f || (d.isNew && (jsTrim (d.fieldVal f) == "")) then
        some (f ++ " cannot be empty")
      else none)) := by
  intro fs
  induction fs with
  | nil => rfl
  | cons f rest ih =>
    unfold requiredLoop
    rw [List.map_cons]
    by_cases hc : (d.isModified f || (d.isNew && (jsTrim (d.fieldVal f) == ""))) = true
    · rw [if_pos hc, if_pos hc]; rfl
    · rw [if_neg hc, if_neg hc, ih]; rfl

theorem applySlugStep_slug_new (d : EventDoc) (hnew : d.isNew = true) :
    (applySlugStep d).slug = slugify d.title := by
  unfold applySlugStep
  rw [if_pos (by rw [hnew]; simp)]
  exact slugSetter_slugify d.title

theorem applySlugStep_id (d : EventDoc) (hnew : d.isNew = false)
    (hmod : d.isModified "title" = false) : applySlugStep d = d := by
  unfold applySlugStep
  rw [if_neg (by rw [hnew, hmod]; simp)]

theorem eventPreSaveHook_ok (d x : EventDoc) (h : eventPreSaveHook d = .ok x) :
    x = applySlugStep d := by
  unfold eventPreSaveHook at h
  simp only at h
  split at h
  · exact absurd h (by simp)
  · split at h
    · exact absurd h (by simp)
    · split at h
      · exact absurd h (by simp)
      · split at h
        · exact absurd h (by simp)
        · exact (Except.ok.injEq _ _ ▸ h).symm

theorem eventPreSaveHook_new_bad_date (d : EventDoc) (hnew : d.isNew = true)
    (hbad : (dateRegexTest d.date && jsDateValid d.date) = false) :
    ∃ m, eventPreSaveHook d = .error m := by
  unfold eventPreSaveHook
  simp only
  have hn : (applySlugStep d).isNew = true := by rw [applySlugStep_isNew, hnew]
  have hd : (applySlugStep d).date = d.date := applySlugStep_date d
  by_cases hr : dateRegexTest d.date = true
  · have hv : jsDateValid d.date = false := by
      cases hj : jsDateValid d.date
      · rfl
      · rw [hr, hj] at hbad; exact absurd hbad (by simp)
    refine ⟨"Invalid date value", ?_⟩
    rw [if_neg (by rw [hd, hr, hn]; simp), if_pos (by rw [hd, hv, hn]; simp)]
  · refine ⟨"Date must be in ISO format (YYYY-MM-DD)", ?_⟩
    rw [if_pos (by rw [hd, hn]; simp [Bool.not_eq_true _ ▸ hr])]

/-! ## Claim theorems -/

/-- C1.  End-to-end behavior on the spec's draft (title "My Talk!!",
date "2026-05-01", time "10:00", other required fields non-empty).  The
code as written rejects the insert: the required-field loop throws
"title cannot be empty" because `isModified(field)` alone triggers the
throw and every supplied path of a new document is modified.  Under the
intended loop (emptiness actually checked), the insert succeeds with
derived slug "my-talk", and booking that event's id with email
"A@B.com" succeeds storing "a@b.com". -/
theorem C1_end_to_end :
    insertEvent c1Draft emptyDB = .error (.hookError "title cannot be empty") ∧
    eventSlugsOf c1AfterEvent = ["my-talk"] ∧
    bookingEmailsOf c1AfterBooking = ["a@b.com"] :=
  ⟨rfl, rfl, rfl⟩

/-- C2.  Two callers entering `connectToDatabase` concurrently on an
idle cache, both before the attempt resolves: the first caller starts
attempt `w.attemptsStarted` and the second awaits that same attempt —
exactly one underlying attempt is started — and when it resolves with
handle `h` both callers receive `h`. -/
theorem C2_single_flight (w : ConnWorld) (h : Nat)
    (hconn : w.cache.conn = none) (hprom : w.cache.promise = none) :
    (connectSync w).2 = .awaiting w.attemptsStarted ∧
    (connectSync (connectSync w).1).2 = .awaiting w.attemptsStarted ∧
    ((connectSync (connectSync w).1).1).attemptsStarted = w.attemptsStarted + 1 ∧
    (connectAwait (connectSync (connectSync w).1).1 (.success h)).2 = .ok h ∧
    (connectAwait (connectAwait (connectSync (connectSync w).1).1 (.success h)).1
        (.success h)).2 = .ok h := by
  simp [connectSync, connectAwait, hconn, hprom]

/-- C2 witness: the concrete idle world with handle 42. -/
theorem C2_single_flight_witness :
    (connectSync w0).2 = .awaiting 0 ∧
    (connectSync (connectSync w0).1).2 = .awaiting 0 ∧
    ((connectSync (connectSync w0).1).1).attemptsStarted = 1 ∧
    (connectAwait (connectSync (connectSync w0).1).1 (.success 42)).2 = .ok 42 ∧
    (connectAwait (connectAwait (connectSync (connectSync w0).1).1 (.success 42)).1
        (.success 42)).2 = .ok 42 := by
  have := C2_single_flight w0 42 rfl rfl
  simpa using this

/-- C3.  A failed attempt on an idle cache: the caller receives the
wrapped connection error, afterwards both slots are clear (the resolved
slot was never populated), and the next call starts a fresh underlying
attempt (the attempt counter grows from 1 to 2). -/
theorem C3_failure_retry (w : ConnWorld) (msg : String)
    (hconn : w.cache.conn = none) (hprom : w.cache.promise = none) :
    (connectAwait (connectSync w).1 (.failure msg)).2 =
      .error ("Database connection error: " ++ msg) ∧
    ((connectAwait (connectSync w).1 (.failure msg)).1).cache.promise = none ∧
    ((connectAwait (connectSync w).1 (.failure msg)).1).cache.conn = none ∧
    (connectSync ((connectAwait (connectSync w).1 (.failure msg)).1)).2 =
      .awaiting (w.attemptsStarted + 1) ∧
    ((connectSync ((connectAwait (connectSync w).1 (.failure msg)).1)).1).attemptsStarted =
      w.attemptsStarted + 2 := by
  simp [connectSync, connectAwait, hconn, hprom]

/-- C3 witness: the concrete idle world with message "refused". -/
theorem C3_failure_retry_witness :
    (connectAwait (connectSync w0).1 (.failure "refused")).2 =
      .error ("Database connection error: " ++ "refused") ∧
    ((connectAwait (connectSync w0).1 (.failure "refused")).1).cache.promise = none ∧
    ((connectAwait (connectSync w0).1 (.failure "refused")).1).cache.conn = none ∧
    (connectSync ((connectAwait (connectSync w0).1 (.failure "refused")).1)).2 =
      .awaiting 1 ∧
    ((connectSync ((connectAwait (connectSync w0).1
        (.failure "refused")).1)).1).attemptsStarted = 2 := by
  have := C3_failure_retry w0 "refused" rfl rfl
  simpa using this

/-- C4.  Booking referential integrity.  (i) Inserting a booking whose
eventId matches no stored event fails with the hook's error naming the
missing id (the store is untouched: no document is returned).  (ii)
Inserting one whose eventId exists (with an email passing validation)
succeeds.  (iii) The lookup also gates every re-save that modifies
`eventId`: a non-new booking whose `eventId` changed to a missing id
fails the same way. -/
theorem C4_booking_reference :
    (∀ (db : AppDB) (dr : BookingDraft),
        validateBooking (mkNewBookingDoc dr) = [] →
        eventExists db dr.eventId = false →
        insertBooking dr db =
          .error (.hookError ("Event with ID " ++ toString dr.eventId ++
            " does not exist"))) ∧
    (∀ (db : AppDB) (dr : BookingDraft),
        validateBooking (mkNewBookingDoc dr) = [] →
        eventExists db dr.eventId = true →
        ∃ db' id, insertBooking dr db = .ok (db', id)) ∧
    (∀ (db : AppDB) (d : BookingDoc),
        d.isNew = false → d.isModified "eventId" = true →
        validateBooking d = [] →
        eventExists db d.eventId = false →
        saveBookingDoc db d =
          .error (.hookError ("Event with ID " ++ toString d.eventId ++
            " does not exist"))) := by
  refine ⟨?_, ?_, ?_⟩
  · intro db dr hval hex
    have hid : (mkNewBookingDoc dr).eventId = dr.eventId := rfl
    have hnew : (mkNewBookingDoc dr).isNew = true := rfl
    simp [insertBooking, saveBookingDoc, hval, bookingPreSaveHook, hid, hnew, hex]
  · intro db dr hval hex
    have hid : (mkNewBookingDoc dr).eventId = dr.eventId := rfl
    have hnew : (mkNewBookingDoc dr).isNew = true := rfl
    refine ⟨{ db with
                bookings := db.bookings ++ [(db.nextBookingId, mkNewBookingDoc dr)]
                nextBookingId := db.nextBookingId + 1 },
             db.nextBookingId, ?_⟩
    simp [insertBooking, saveBookingDoc, hval, bookingPreSaveHook, hid, hnew, hex]
  · intro db d hnew hmod hval hex
    simp [saveBookingDoc, hval, bookingPreSaveHook, hmod, hex]

/-- C4 witness: in the store holding event 0, booking a missing id 7
fails naming it, booking id 0 with email "User@Example.com" succeeds,
and a stored booking re-pointed at missing id 9 fails on save. -/
theorem C4_booking_reference_witness :
    insertBooking { eventId := 7, email := "user@example.com" } c4DB =
      .error (.hookError ("Event with ID " ++ toString 7 ++ " does not exist")) ∧
    (∃ db' id, insertBooking { eventId := 0, email := "User@Example.com" } c4DB =
      .ok (db', id)) ∧
    saveBookingDoc c4DB
        { eventId := 9, email := "user@example.com", isNew := false,
          modified := ["eventId"] } =
      .error (.hookError ("Event with ID " ++ toString 9 ++ " does not exist")) := by
  refine ⟨?_, ?_, ?_⟩
  · exact C4_booking_reference.1 c4DB { eventId := 7, email := "user@example.com" }
      (by decide) (by decide)
  · exact C4_booking_reference.2.1 c4DB { eventId := 0, email := "User@Example.com" }
      (by decide) (by decide)
  · exact C4_booking_reference.2.2 c4DB
      { eventId := 9, email := "user@example.com", isNew := false,
        modified := ["eventId"] } rfl (by decide) (by decide) (by decide)

/-- C5.  Date validation: whenever a draft's date fails the pattern
test or the calendar-parse test, the insert fails; and concretely
"2026-10-25" passes both checks while "2024-13-01" and "2024-02-30"
pass the pattern but fail calendar parsing. -/
theorem C5_date_validation :
    (∀ (dr : EventDraft) (db : AppDB),
        (dateRegexTest dr.date && jsDateValid dr.date) = false →
        ∃ e, insertEvent dr db = .error e) ∧
    dateRegexTest "2026-10-25" = true ∧ jsDateValid "2026-10-25" = true ∧
    dateRegexTest "2024-13-01" = true ∧ jsDateValid "2024-13-01" = false ∧
    dateRegexTest "2024-02-30" = true ∧ jsDateValid "2024-02-30" = false := by
  refine ⟨?_, by decide, by decide, by decide, by decide, by decide, by decide⟩
  intro dr db hbad
  cases hval : validateEvent (mkNewEventDoc dr) with
  | cons a as =>
    exact ⟨.pathErrors (a :: as), by simp [insertEvent, saveEventDoc, hval]⟩
  | nil =>
    have hnew : (mkNewEventDoc dr).isNew = true := rfl
    have hdate : (mkNewEventDoc dr).date = dr.date := rfl
    obtain ⟨m, hm⟩ :=
      eventPreSaveHook_new_bad_date (mkNewEventDoc dr) hnew (hdate ▸ hbad)
    exact ⟨.hookError m, by simp [insertEvent, saveEventDoc, hval, hm]⟩

/-- C5 witness: the draft with date "2024-02-30" is rejected. -/
theorem C5_date_validation_witness :
    ∃ e, insertEvent { c1Draft with date := "2024-02-30" } emptyDB = .error e :=
  C5_date_validation.1 { c1Draft with date := "2024-02-30" } emptyDB (by decide)

/-- C6.  For each of the seven required text fields, a draft whose
value for that field is empty or whitespace-only is rejected: the
`trim` setter reduces the value to the empty string, the path's
`required` validator fails before the hook runs, and the aggregated
validation error carries an entry naming that field; the insert returns
an error, so nothing is persisted. -/
theorem C6_required_fields (dr : EventDraft) (db : AppDB) (f : String)
    (hf : f ∈ requiredFields) (hemp : jsTrim (dr.fieldVal f) = "") :
    ∃ msg, insertEvent dr db = .error (.pathErrors (validateEvent (mkNewEventDoc dr))) ∧
      (f, msg) ∈ validateEvent (mkNewEventDoc dr) := by
  have main : ∃ msg, (f, msg) ∈ validateEvent (mkNewEventDoc dr) := by
    fin_cases hf
    · refine ⟨"Title is required", ?_⟩
      have hv : (mkNewEventDoc dr).title = "" := by
        simp only [mkNewEventDoc]
        simpa [EventDraft.fieldVal] using hemp
      simp [validateEvent, List.mem_append, hv]
    · refine ⟨"Description is required", ?_⟩
      have hv : (mkNewEventDoc dr).description = "" := by
        simp only [mkNewEventDoc]
        simpa [EventDraft.fieldVal] using hemp
      simp [validateEvent, List.mem_append, hv]
    · refine ⟨"Overview is required", ?_⟩
      have hv : (mkNewEventDoc dr).overview = "" := by
        simp only [mkNewEventDoc]
        simpa [EventDraft.fieldVal] using hemp
      simp [validateEvent, List.mem_append, hv]
    · refine ⟨"Image URL is required", ?_⟩
      have hv : (mkNewEventDoc dr).image = "" := by
        simp only [mkNewEventDoc]
        simpa [EventDraft.fieldVal] using hemp
      simp [validateEvent, List.mem_append, hv]
    · refine ⟨"Venue is required", ?_⟩
      have hv : (mkNewEventDoc dr).venue = "" := by
        simp only [mkNewEventDoc]
        simpa [EventDraft.fieldVal] using hemp
      simp [validateEvent, List.mem_append, hv]
    · refine ⟨"Location is required", ?_⟩
      have hv : (mkNewEventDoc dr).location = "" := by
        simp only [mkNewEventDoc]
        simpa [EventDraft.fieldVal] using hemp
      simp [validateEvent, List.mem_append, hv]
    · refine ⟨"Organizer is required", ?_⟩
      have hv : (mkNewEventDoc dr).organizer = "" := by
        simp only [mkNewEventDoc]
        simpa [EventDraft.fieldVal] using hemp
      simp [validateEvent, List.mem_append, hv]
  obtain ⟨msg, hmem⟩ := main
  obtain ⟨a, as, hcons⟩ := List.exists_cons_of_ne_nil (List.ne_nil_of_mem hmem)
  exact ⟨msg, by simp [insertEvent, saveEventDoc, hcons], hmem⟩

/-- C6 witness: the draft with whitespace-only venue is rejected with
an error entry naming "venue". -/
theorem C6_required_fields_witness :
    ∃ msg, insertEvent { c1Draft with venue := "   " } emptyDB =
        .error (.pathErrors (validateEvent (mkNewEventDoc { c1Draft with venue := "   " }))) ∧
      ("venue", msg) ∈ validateEvent (mkNewEventDoc { c1Draft with venue := "   " }) :=
  C6_required_fields { c1Draft with venue := "   " } emptyDB "venue"
    (by decide) (by decide)

/-- C7 counterexample: the title "!!!" is non-empty after trimming, yet
the derivation assigns the new document an empty slug — strict mode
strips every character. -/
theorem C7_slug_counterexample :
    jsTrim c7CexDoc.title ≠ "" ∧ c7CexDoc.isNew = true ∧
    (applySlugStep c7CexDoc).slug = "" := by
  refine ⟨by decide, rfl, ?_⟩
  rw [applySlugStep_slug_new c7CexDoc rfl]
  decide

/-- C7 as amended: on every new document the derived slug is entirely
lowercase and uses only URL-safe characters (lowercase ASCII letters,
digits, "-"); it is non-empty provided the transliterated title retains
at least one alphanumeric character — a non-empty trimmed title made
only of stripped punctuation (such as "!!!") yields an empty slug. -/
theorem C7_slug_amended (d : EventDoc) (hnew : d.isNew = true) :
    (∀ c ∈ (applySlugStep d).slug.toList, urlSafeChar c = true ∧ isAsciiUpper c = false) ∧
    ((∃ c ∈ d.title.toList.flatMap charMapJS, isAlnumJS c = true) →
      (applySlugStep d).slug ≠ "") := by
  rw [applySlugStep_slug_new d hnew]
  constructor
  · intro c hc
    exact ⟨slugify_urlSafe d.title c hc,
      not_upper_of_urlSafe c (slugify_urlSafe d.title c hc)⟩
  · exact slugify_ne_empty

/-- C7 witness: on the document titled "My Talk!!" the amended claim
gives a non-empty slug. -/
theorem C7_slug_amended_witness : (applySlugStep c7WitnessDoc).slug ≠ "" :=
  (C7_slug_amended c7WitnessDoc rfl).2 (by decide)

/-- C8.  Re-saving a stored event without modifying its title leaves
its slug unchanged: slug derivation runs only when the title is
modified or the document is new, and no other step of the save path
writes the slug. -/
theorem C8_slug_stable (d d' : EventDoc) (hnew : d.isNew = false)
    (hmod : d.isModified "title" = false) (hsave : saveEventDoc d = .ok d') :
    d'.slug = d.slug := by
  unfold saveEventDoc at hsave
  split at hsave
  · cases heq : eventPreSaveHook d with
    | error e => rw [heq] at hsave; exact absurd hsave (by simp)
    | ok x =>
      rw [heq] at hsave
      have hx : x = applySlugStep d := eventPreSaveHook_ok d x heq
      have hdx : d' = x := by
        cases hsave
        rfl
      rw [hdx, hx, applySlugStep_id d hnew hmod]
  · exact absurd hsave (by simp)

/-- C8 witness: the stored document `c8WitnessDoc`, re-saved with only
its date modified, keeps its slug. -/
theorem C8_slug_stable_witness :
    saveEventDoc c8WitnessDoc = .ok c8WitnessDoc ∧
    c8WitnessDoc.slug = c8WitnessDoc.slug :=
  ⟨rfl, C8_slug_stable c8WitnessDoc c8WitnessDoc rfl rfl rfl⟩

/-- C9.  The slug assigned to a new document is `slugify` of its title
and nothing else — a pure function of the title: two new documents with
equal titles get equal slugs, the derivation consults no store and adds
no disambiguation, and uniqueness is left to the schema's unique index
on the slug path. -/
theorem C9_slug_pure :
    (∀ d : EventDoc, d.isNew = true → (applySlugStep d).slug = slugify d.title) ∧
    (∀ d1 d2 : EventDoc, d1.isNew = true → d2.isNew = true →
      d1.title = d2.title → (applySlugStep d1).slug = (applySlugStep d2).slug) ∧
    eventSlugOptions.unique = true := by
  refine ⟨applySlugStep_slug_new, ?_, rfl⟩
  intro d1 d2 h1 h2 ht
  rw [applySlugStep_slug_new d1 h1, applySlugStep_slug_new d2 h2, ht]

/-- C9 witness: two new documents sharing the title "My Talk!!" but
differing elsewhere receive the same slug. -/
theorem C9_slug_pure_witness :
    (applySlugStep c7WitnessDoc).slug = (applySlugStep c9OtherDoc).slug :=
  C9_slug_pure.2.1 c7WitnessDoc c9OtherDoc rfl rfl rfl

/-- C10.  The event hook is the first-failure scan of its checks in a
fixed order: after slug derivation it evaluates the date-format check,
the date-parse check, the time check, then the seven required-field
checks in the order title, description, overview, image, venue,
location, organizer, and its result is the error of the first failing
check (hence at most one error per save) or the slug-updated document
when none fails. -/
theorem C10_hook_order (d : EventDoc) :
    eventPreSaveHook d =
      match firstSome (eventHookChecks (applySlugStep d)) with
      | some e => Except.error e
      | none => Except.ok (applySlugStep d) := by
  unfold eventPreSaveHook eventHookChecks requiredFields
  simp only
  by_cases h1 : (((applySlugStep d).isModified "date" || (applySlugStep d).isNew) &&
      !dateRegexTest (applySlugStep d).date) = true
  · simp [h1, firstSome]
  · rw [if_neg h1]
    by_cases h2 : (((applySlugStep d).isModified "date" || (applySlugStep d).isNew) &&
        !jsDateValid (applySlugStep d).date) = true
    · simp [h1, h2, firstSome]
    · rw [if_neg h2]
      by_cases h3 : (((applySlugStep d).isModified "time" || (applySlugStep d).isNew) &&
          (jsTrim (applySlugStep d).time == "")) = true
      · simp [h1, h2, h3, firstSome]
      · rw [if_neg h3]
        rw [requiredLoop_eq_firstSome (applySlugStep d)
          ["title", "description", "overview", "image", "venue", "location", "organizer"]]
        simp only [Bool.not_eq_true] at h1 h2 h3
        simp [h1, h2, h3, firstSome]
